import Mathlib

/-!
Shallow embedding of the room-synchronization and admission-control engine of
the single-room-chat server (src/unnamed/part_001, the multi-room revision of
src/server.js).  Times are modelled as `Int` (JS `Date.now()` values and their
subtractions), ids as `Nat`, JS objects used as maps as association lists where
an assignment conses a fresh binding (lookup takes the first binding, matching
JS property overwrite as observed by reads).
-/

namespace SingleRoomChat

/-- Entry stored in a room's `chatLog`: `{ id: nextMessageId++, ...entry }`
as built in `pushLog` (part_001 line 277).  The spread payload carries the
fields used by the four entry kinds (`system | chat | dice | topic`). -/
structure LogEntry where
  id : Nat
  type : String
  time : String
  name : Option String
  text : Option String
  color : Option String
  topic : Option String
deriving DecidableEq, Repr

/-- Payload handed to `pushLog` before the id is attached
(`{ type, time, ...payload }` built in `emitLog`, part_001 line 302). -/
structure Payload where
  type : String
  time : String
  name : Option String
  text : Option String
  color : Option String
  topic : Option String
deriving DecidableEq, Repr

/-- Attaching the freshly assigned id: `const e = { id: st.nextMessageId++, ...entry }`. -/
def Payload.toEntry (p : Payload) (i : Nat) : LogEntry :=
  ⟨i, p.type, p.time, p.name, p.text, p.color, p.topic⟩

/-- Parked long-poll request (`{ sinceId, res, timer }`, part_001 line 743).
`wid` stands for the identity of the HTTP response handle `res`. -/
structure Waiter where
  wid : Nat
  sinceId : Nat
deriving DecidableEq, Repr

/-- Member record `{ name, color, gender }` (part_001 line 826). -/
structure User where
  name : String
  color : Option String
  gender : String
deriving DecidableEq, Repr

/-- Per-room state created by `getRoomState` (part_001 lines 219-232). -/
structure RoomState where
  users : List (String × User)
  typingUsers : List String
  chatLog : List LogEntry
  nextMessageId : Nat
  pollWaiters : List Waiter
  lastActivityTimes : List (String × Int)
deriving DecidableEq, Repr

/-- Fresh room: `{ users:{}, typingUsers:Set, chatLog:[], nextMessageId:1, pollWaiters:Set, lastActivityTimes:{} }`. -/
def initRoomState : RoomState := ⟨[], [], [], 1, [], []⟩

/-- Room capacity `MAX_USERS = 10` (part_001 line 238). -/
def MAX_USERS : Nat := 10

/-- Inactivity limit, also the reconnection-grace window
(`INACTIVITY_LIMIT_MS = 10 * 60 * 1000`, part_001 line 241). -/
def INACTIVITY_LIMIT_MS : Int := 10 * 60 * 1000

/-- `chatLog.filter((m) => m.id > sinceId)` — the new entries for a cursor. -/
def newsFor (log : List LogEntry) (sinceId : Nat) : List LogEntry :=
  log.filter (fun m => sinceId < m.id)

/-- The sliding window of `pushLog`:
`if (st.chatLog.length > 50) st.chatLog.shift()` applied to the appended log. -/
def pushTrunc (log : List LogEntry) : List LogEntry :=
  if 50 < log.length then log.tail else log

/-- `pushLog(room, entry)` (part_001 lines 274-292): assign the next id,
append, drop the oldest entry once the log exceeds 50, then satisfy every
parked waiter that now has news.  Returns the new state, the stored entry and
the list of responses `(wid, messages)` sent to satisfied waiters. -/
def pushLog (st : RoomState) (p : Payload) :
    RoomState × LogEntry × List (Nat × List LogEntry) :=
  let e := p.toEntry st.nextMessageId
  let log2 := pushTrunc (st.chatLog ++ [e])
  let fired := (st.pollWaiters.filter (fun w => !(newsFor log2 w.sinceId).isEmpty)).map
    (fun w => (w.wid, newsFor log2 w.sinceId))
  let remaining := st.pollWaiters.filter (fun w => (newsFor log2 w.sinceId).isEmpty)
  (⟨st.users, st.typingUsers, log2, st.nextMessageId + 1, remaining, st.lastActivityTimes⟩,
   e, fired)

/-- Response of `GET /api/poll` as seen by one request (part_001 lines 731-758). -/
inductive PollResponse where
  | notFound
  | ok (messages : List LogEntry)
  | parked
deriving DecidableEq, Repr

/-- `GET /api/poll` (part_001 lines 731-758): 404 for a room outside the
allow-list; otherwise answer immediately when entries beyond the cursor exist,
else park a waiter.  `wid` names the request's response handle. -/
def pollEndpoint (roomAllowed : Bool) (st : RoomState) (wid sinceId : Nat) :
    RoomState × PollResponse :=
  if !roomAllowed then (st, .notFound)
  else
    let news := newsFor st.chatLog sinceId
    if !news.isEmpty then (st, .ok news)
    else
      (⟨st.users, st.typingUsers, st.chatLog, st.nextMessageId,
        st.pollWaiters ++ [⟨wid, sinceId⟩], st.lastActivityTimes⟩, .parked)

/-- Timer expiry of a parked waiter (part_001 lines 746-749): if the waiter is
still parked, remove it and answer `{ ok:true, messages: [] }`.  A waiter
already satisfied by `pushLog` had its timer cleared (`clearTimeout`), which
the membership guard models. -/
def timeoutWaiter (st : RoomState) (wid : Nat) :
    RoomState × List (Nat × List LogEntry) :=
  if st.pollWaiters.any (fun w => w.wid == wid) then
    (⟨st.users, st.typingUsers, st.chatLog, st.nextMessageId,
      st.pollWaiters.eraseP (fun w => w.wid == wid), st.lastActivityTimes⟩,
     [(wid, [])])
  else (st, [])

/-- `req.on("close", ...)` (part_001 lines 754-757): cancel a parked waiter
without any response. -/
def closeWaiter (st : RoomState) (wid : Nat) : RoomState :=
  if st.pollWaiters.any (fun w => w.wid == wid) then
    ⟨st.users, st.typingUsers, st.chatLog, st.nextMessageId,
      st.pollWaiters.eraseP (fun w => w.wid == wid), st.lastActivityTimes⟩
  else st

/-- Idle-room reclamation (part_001 lines 1100-1104 and analogues):
`st.chatLog.length = 0; st.typingUsers.clear()` — the id counter and the
parked waiters are untouched. -/
def clearLog (st : RoomState) : RoomState :=
  ⟨st.users, [], [], st.nextMessageId, st.pollWaiters, st.lastActivityTimes⟩

/-- Events that touch one room's log and waiter set. -/
inductive Op where
  | push (p : Payload)
  | poll (wid sinceId : Nat)
  | timeout (wid : Nat)
  | close (wid : Nat)
  | clear
deriving Repr

/-- Room state together with the history of appended entries and of responses
delivered to poll requests. -/
structure Trace where
  state : RoomState
  appended : List LogEntry
  responses : List (Nat × List LogEntry)
deriving DecidableEq, Repr

/-- One event: `push` is a call of `pushLog` (from any handler via `emitLog`),
`poll` a `GET /api/poll` on an allowed room, `timeout` a waiter timer firing,
`close` a client hangup, `clear` the idle-room reclamation. -/
def step (t : Trace) : Op → Trace
  | .push p =>
    let r := pushLog t.state p
    ⟨r.1, t.appended ++ [r.2.1], t.responses ++ r.2.2⟩
  | .poll wid sinceId =>
    let r := pollEndpoint true t.state wid sinceId
    match r.2 with
    | .ok news => ⟨r.1, t.appended, t.responses ++ [(wid, news)]⟩
    | _ => ⟨r.1, t.appended, t.responses⟩
  | .timeout wid =>
    let r := timeoutWaiter t.state wid
    ⟨r.1, t.appended, t.responses ++ r.2⟩
  | .close wid => ⟨closeWaiter t.state wid, t.appended, t.responses⟩
  | .clear => ⟨clearLog t.state, t.appended, t.responses⟩

/-- Run a sequence of events on a fresh room. -/
def runOps (ops : List Op) : Trace := ops.foldl step ⟨initRoomState, [], []⟩

/-! ### JS string and falsiness helpers -/

/-- Characters removed by JS `String.prototype.trim` (WhiteSpace and
LineTerminator code points). -/
def JS_WHITESPACE : List Char :=
  ['\t', '\n', '\u000B', '\u000C', '\r', ' ', '\u00A0', '\u1680',
   '\u2000', '\u2001', '\u2002', '\u2003', '\u2004', '\u2005', '\u2006',
   '\u2007', '\u2008', '\u2009', '\u200A', '\u2028', '\u2029', '\u202F',
   '\u205F', '\u3000', '\uFEFF']

/-- Whether JS `trim` strips the character. -/
def jsWhitespace (c : Char) : Bool := JS_WHITESPACE.contains c

/-- Strip leading JS whitespace. -/
def trimLeft (l : List Char) : List Char := l.dropWhile jsWhitespace

/-- Strip trailing JS whitespace. -/
def trimRight (l : List Char) : List Char := (l.reverse.dropWhile jsWhitespace).reverse

/-- JS `String.prototype.trim` on a character list. -/
def jsTrimList (l : List Char) : List Char := trimRight (trimLeft l)

/-- JS `s.trim()`. -/
def jsTrim (s : String) : String := ⟨jsTrimList s.data⟩

/-- JS `str.length` (UTF-16 units; the texts handled here are BMP-only, where
it equals the code-point count). -/
def jsLen (s : String) : Int := (s.data.length : Int)

/-- JS `o || d` for an optional string (`""` and `null` are falsy). -/
def jsOrStr (o : Option String) (d : String) : String :=
  match o with
  | some s => if s = "" then d else s
  | none => d

/-- JS `s || null` for an optional string. -/
def jsOrNone (o : Option String) : Option String :=
  match o with
  | some s => if s = "" then none else some s
  | none => none

/-- JS `s.endsWith(suffix)`. -/
def strEndsWith (s suffix : String) : Bool := List.isSuffixOf suffix.data s.data

/-- Whether the list ends in the given character (JS `base.endsWith("♂")` for a
one-character suffix). -/
def endsWithChar (l : List Char) (c : Char) : Bool := l.getLast? == some c

/-- `applyGenderMark(name, gender)` (part_001 lines 207-213): trim the name
and, unless it already ends in a gender mark, append `♂` for `"male"` and `♀`
for `"female"`. -/
def applyGenderMark (name gender : String) : String :=
  let base := jsTrimList name.data
  if endsWithChar base '♂' || endsWithChar base '♀' then ⟨base⟩
  else if gender == "male" then ⟨base ++ ['♂']⟩
  else if gender == "female" then ⟨base ++ ['♀']⟩
  else ⟨base⟩

/-! ### Rate limiting -/

/-- `keyOf(room, clientId)` (part_001 lines 256-258). -/
def keyOf (room clientId : String) : String := room ++ ":" ++ clientId

/-- `checkRateLimit(room, clientId)` (part_001 lines 260-272), with the clock
`now`, the policy's `minIntervalMs` and the `lastActionTimeByKey` map passed
explicitly.  Returns the `waitMs` result and the updated map: on rejection the
map is untouched, on acceptance the key is set to `now`. -/
def checkRateLimit (minIntervalMs : Int) (rl : List (String × Int))
    (room clientId : String) (now : Int) : Int × List (String × Int) :=
  if clientId = "" then (0, rl)
  else
    let k := keyOf room clientId
    let last := (rl.lookup k).getD 0
    let diff := now - last
    if diff < minIntervalMs then (minIntervalMs - diff, rl)
    else (0, (k, now) :: rl)

/-- `lastActivityTimes[socketId] = Date.now()` (`touchActivity`, part_001
lines 356-359). -/
def touchActivity (st : RoomState) (socketId : String) (now : Int) : RoomState :=
  ⟨st.users, st.typingUsers, st.chatLog, st.nextMessageId, st.pollWaiters,
   (socketId, now) :: st.lastActivityTimes⟩

/-! ### Moderation and the send-message handler -/

/-- The hot-swappable moderation policy (part_001 lines 112-119). -/
structure ModerationPolicy where
  maxMsgLen : Int
  minIntervalMs : Int
  maxUrlsPerMsg : Int
  blockPII : Bool
  ngWords : List String
  ngRegexes : List String

/-- Text-analysis helpers called by the send-message handler.  Their bodies are
regex/NFKC/URL-parser based (`containsPersonalInfo`, part_001 lines 187-195;
`containsNgWordByModeration`, lines 161-177; `text.match(URL_REGEX)` and
`new URL(u).hostname.toLowerCase()`, lines 935-945); the engines behind them
are outside this embedding, while every branch the handler takes on their
results is translated exactly. -/
structure SendEnv where
  piiCheck : String → Bool
  ngCheck : String → Bool
  urlsOf : String → List String
  hostOf : String → String

/-- `BLOCKED_URL_DOMAINS` (part_001 line 181). -/
def BLOCKED_URL_DOMAINS : List String :=
  ["bit.ly", "t.co", "discord.gg", "goo.gl", "tinyurl.com"]

/-- `BLOCKED_URL_DOMAINS.some((d) => host === d || host.endsWith("." + d))`
(part_001 line 946). -/
def isBlockedHost (host : String) : Bool :=
  BLOCKED_URL_DOMAINS.any (fun d => host == d || strEndsWith host ("." ++ d))

/-- Outcome of the `send-message` handler as observed by the sender. -/
inductive SendOutcome where
  | noRoom
  | noUser
  | emptyText
  | tooLong
  | pii
  | ngWord
  | tooManyUrls
  | blockedDomain
  | rateLimited (waitMs : Int)
  | accepted (e : LogEntry)
deriving DecidableEq, Repr

/-- The `send-message` handler (part_001 lines 899-969): resolve room and
member, trim the text, then in this order run the length, PII, NG-word,
URL-count and blocked-domain checks, then the rate limit, and only then
`touchActivity` and `emitLog("chat", ...)`.  Returns the outcome, the updated
rate-limit map, the updated room state and the responses flushed to parked
poll waiters by the append. -/
def sendMessage (env : SendEnv) (mod : ModerationPolicy) (roomAllowed : Bool)
    (room : String) (socketClientIds : List (String × String)) (socketId : String)
    (msg : String) (timeStr : String) (now : Int)
    (rl : List (String × Int)) (st : RoomState) :
    SendOutcome × List (String × Int) × RoomState × List (Nat × List LogEntry) :=
  if !roomAllowed then (.noRoom, rl, st, [])
  else
    match st.users.lookup socketId with
    | none => (.noUser, rl, st, [])
    | some user =>
      let text := jsTrim msg
      if text = "" then (.emptyText, rl, st, [])
      else if 0 < mod.maxMsgLen ∧ mod.maxMsgLen < jsLen text then (.tooLong, rl, st, [])
      else if mod.blockPII && env.piiCheck text then (.pii, rl, st, [])
      else if env.ngCheck text then (.ngWord, rl, st, [])
      else
        let urls := env.urlsOf text
        if 0 ≤ mod.maxUrlsPerMsg ∧ mod.maxUrlsPerMsg < (urls.length : Int) then
          (.tooManyUrls, rl, st, [])
        else if urls.any (fun raw => isBlockedHost (env.hostOf raw)) then
          (.blockedDomain, rl, st, [])
        else
          let clientId := jsOrStr (socketClientIds.lookup socketId) socketId
          let r := checkRateLimit mod.minIntervalMs rl room clientId now
          if 0 < r.1 then (.rateLimited r.1, r.2, st, [])
          else
            let st1 := touchActivity st socketId now
            let r2 := pushLog st1
              ⟨"chat", timeStr, some user.name, some text, jsOrNone user.color, none⟩
            (.accepted r2.2.1, r.2, r2.1, r2.2.2)

/-! ### Ban list -/

/-- Persisted ban entry (part_001 lines 546-553). -/
structure BanEntry where
  id : String
  type : String
  value : String
  reason : String
  expiresAt : Option Int
  createdAt : Int
deriving DecidableEq, Repr

/-- The predicate of `cleanupExpiredBans` (part_001 line 142):
`!it.expiresAt || it.expiresAt > now`.  A `null` — or, by JS falsiness, `0` —
expiry keeps the entry forever. -/
def banKeep (now : Int) (it : BanEntry) : Bool :=
  match it.expiresAt with
  | none => true
  | some e => e == 0 || now < e

/-- `cleanupExpiredBans()` (part_001 lines 140-144): drop expired entries. -/
def cleanupExpiredBans (items : List BanEntry) (now : Int) : List BanEntry :=
  items.filter (banKeep now)

/-- The per-entry match of `isBanned` (part_001 lines 154-157): a truthy
clientId equal to a clientId-entry's value, or a truthy ip equal to an
ip-entry's value. -/
def matchesIdentity (it : BanEntry) (clientId ip : String) : Bool :=
  (it.type == "clientId" && clientId != "" && it.value == clientId) ||
  (it.type == "ip" && ip != "" && it.value == ip)

/-- `isBanned(clientId, ip)` (part_001 lines 152-159): first clean up expired
entries, then scan.  Returns the verdict and the cleaned list. -/
def isBanned (items : List BanEntry) (clientId ip : String) (now : Int) :
    Bool × List BanEntry :=
  let items1 := cleanupExpiredBans items now
  (items1.any (fun it => matchesIdentity it clientId ip), items1)

/-! ### Join and leave -/

/-- Arguments of one `join` event (part_001 lines 777-855): the parsed payload
plus the ambient clock, caller ip, the rendered time string and the random
fallback name `"user-" + Math.floor(Math.random()*1000)`. -/
structure JoinInput where
  roomAllowed : Bool
  room : String
  socketId : String
  rawName : String
  color : Option String
  clientIdOpt : Option String
  gender : String
  ip : String
  now : Int
  timeStr : String
  randName : String
deriving DecidableEq, Repr

/-- Outcome of the `join` handler as observed by the caller. -/
inductive JoinOutcome where
  | notAllowed
  | alreadyJoined
  | roomFull
  | banned
  | joined (announced : Bool) (displayName : String)
deriving DecidableEq, Repr

/-- The `join` handler (part_001 lines 777-855): refuse an unknown room,
ignore a duplicate join, reject at capacity, record `socketClientIds`, reject a
banned identity, apply the gender mark, add the member, then announce —
unless a recorded leave instant for `(clientId, room)` lies within
`INACTIVITY_LIMIT_MS` of `now` — and touch activity.  Returns the outcome,
the room state, the `socketClientIds` map, the (possibly cleaned) ban list and
the poll responses flushed by the announcement append. -/
def joinRoom (inp : JoinInput) (banItems : List BanEntry)
    (socketClientIds : List (String × String))
    (lastLeave : List ((String × String) × Int)) (st : RoomState) :
    JoinOutcome × RoomState × List (String × String) × List BanEntry ×
      List (Nat × List LogEntry) :=
  if !inp.roomAllowed then (.notAllowed, st, socketClientIds, banItems, [])
  else if (st.users.lookup inp.socketId).isSome then
    (.alreadyJoined, st, socketClientIds, banItems, [])
  else if MAX_USERS ≤ st.users.length then
    (.roomFull, st, socketClientIds, banItems, [])
  else
    let clientId := jsOrStr inp.clientIdOpt inp.socketId
    let scim1 := (inp.socketId, clientId) :: socketClientIds
    let r := isBanned banItems clientId inp.ip inp.now
    if r.1 then (.banned, st, scim1, r.2, [])
    else
      let baseName := if jsTrim inp.rawName ≠ "" then jsTrim inp.rawName else inp.randName
      let displayName := applyGenderMark baseName inp.gender
      let st1 : RoomState :=
        ⟨(inp.socketId, ⟨displayName, inp.color, inp.gender⟩) :: st.users,
         st.typingUsers, st.chatLog, st.nextMessageId, st.pollWaiters,
         st.lastActivityTimes⟩
      let suppress :=
        match lastLeave.lookup (clientId, inp.room) with
        | some t => t != 0 && decide (inp.now - t < INACTIVITY_LIMIT_MS)
        | none => false
      if suppress then
        (.joined false displayName, touchActivity st1 inp.socketId inp.now, scim1, r.2, [])
      else
        let r2 := pushLog st1
          ⟨"system", inp.timeStr, none,
           some ("「" ++ displayName ++ "」さんが入室しました。"), none, none⟩
        (.joined true displayName, touchActivity r2.1 inp.socketId inp.now, scim1, r.2,
         r2.2.2)

/-- The explicit `leave` handler (part_001 lines 1073-1105): for a present
member, record the leave instant in `lastLeaveByClientIdRoom[clientId][room]`
(when the stored clientId is truthy), drop the member, announce the departure,
and clear the log and typing set if the room emptied.  Returns the room state,
the `socketClientIds` map, the leave-marker map and the flushed poll
responses. -/
def leaveRoom (roomAllowed : Bool) (room socketId timeStr : String) (now : Int)
    (socketClientIds : List (String × String))
    (lastLeave : List ((String × String) × Int)) (st : RoomState) :
    RoomState × List (String × String) × List ((String × String) × Int) ×
      List (Nat × List LogEntry) :=
  if !roomAllowed then (st, socketClientIds, lastLeave, [])
  else
    match st.users.lookup socketId with
    | none => (st, socketClientIds, lastLeave, [])
    | some user =>
      let p :=
        match socketClientIds.lookup socketId with
        | some cid =>
          if cid = "" then (socketClientIds, lastLeave)
          else (socketClientIds.filter (fun kv => kv.1 != socketId),
                ((cid, room), now) :: lastLeave)
        | none => (socketClientIds, lastLeave)
      let st1 : RoomState :=
        ⟨st.users.filter (fun kv => kv.1 != socketId),
         st.typingUsers.filter (fun x => x != socketId), st.chatLog,
         st.nextMessageId, st.pollWaiters,
         st.lastActivityTimes.filter (fun kv => kv.1 != socketId)⟩
      let r2 := pushLog st1
        ⟨"system", timeStr, none,
         some ("「" ++ user.name ++ "」さんが退室しました。"), none, none⟩
      let st3 := if r2.1.users.isEmpty then clearLog r2.1 else r2.1
      (st3, p.1, p.2, r2.2.2)

/-! ### Reachability invariant and trace counters -/

/-- Invariant of every trace reachable from a fresh room: the retained log and
the append history are strictly sorted by id, and every assigned id is below
the next-id counter. -/
structure Inv (t : Trace) : Prop where
  logSorted : t.state.chatLog.Pairwise (fun a b => a.id < b.id)
  logBounded : ∀ e ∈ t.state.chatLog, e.id < t.state.nextMessageId
  appSorted : t.appended.Pairwise (fun a b => a.id < b.id)
  appBounded : ∀ e ∈ t.appended, e.id < t.state.nextMessageId

/-- Number of `poll` events carrying the given response handle. -/
def pollCount (wid : Nat) (ops : List Op) : Nat :=
  (ops.filter (fun op => match op with | .poll w _ => w == wid | _ => false)).length

/-- Number of responses delivered to the given response handle. -/
def respCount (wid : Nat) (t : Trace) : Nat :=
  (t.responses.filter (fun r => r.1 == wid)).length

/-- Number of parked waiters carrying the given response handle. -/
def waiterCount (wid : Nat) (t : Trace) : Nat :=
  (t.state.pollWaiters.filter (fun w => w.wid == wid)).length

/-! ### Concrete scenario data -/

/-- A fixed chat payload. -/
def pChat : Payload := ⟨"chat", "12:00", some "alice", some "hi", none, none⟩

/-- Fifty appends: the room then retains entries with ids 1..50. -/
def ops50 : List Op := List.replicate 50 (.push pChat)

/-- The default moderation policy (part_001 lines 112-119). -/
def mod1000 : ModerationPolicy := ⟨300, 1000, 3, true, [], []⟩

/-- A policy whose length limit is one character. -/
def modTiny : ModerationPolicy := ⟨1, 1000, 3, true, [], []⟩

/-- Helper verdicts for concrete runs: no PII, no NG match, no URLs. -/
def env0 : SendEnv := ⟨fun _ => false, fun _ => false, fun _ => [], fun _ => ""⟩

/-- A room whose only member is alice (socket `"s1"`). -/
def stWithAlice : RoomState :=
  ⟨[("s1", ⟨"alice♀", none, "female"⟩)], [], [], 1, [], []⟩

/-- `socketClientIds` binding socket `"s1"` to device `"c1"`. -/
def scim1 : List (String × String) := [("s1", "c1")]

/-- A rate-limit map whose `"main:c1"` clock reads 5000. -/
def rl5000 : List (String × Int) := [("main:c1", 5000)]

/-- Ten distinct members. -/
def tenUsers : List (String × User) :=
  [("u1", ⟨"n1", none, ""⟩), ("u2", ⟨"n2", none, ""⟩), ("u3", ⟨"n3", none, ""⟩),
   ("u4", ⟨"n4", none, ""⟩), ("u5", ⟨"n5", none, ""⟩), ("u6", ⟨"n6", none, ""⟩),
   ("u7", ⟨"n7", none, ""⟩), ("u8", ⟨"n8", none, ""⟩), ("u9", ⟨"n9", none, ""⟩),
   ("u10", ⟨"n10", none, ""⟩)]

/-- A room at capacity. -/
def stFull : RoomState := ⟨tenUsers, [], [], 1, [], []⟩

/-- A rejoin attempt of device `"c1"` five seconds after its recorded leave. -/
def inpRejoin : JoinInput :=
  ⟨true, "main", "s2", "alice", none, some "c1", "", "", 10000, "12:05", "user-1"⟩

/-- An eleventh join attempt against `stFull`. -/
def inpEleventh : JoinInput :=
  ⟨true, "main", "s11", "kate", none, some "c11", "", "", 7000, "12:10", "user-2"⟩

/-- A join attempt of device `"c9"`. -/
def inpC9 : JoinInput :=
  ⟨true, "main", "s9", "bob", none, some "c9", "", "", 1000, "12:20", "user-3"⟩

/-- The same join attempt at the ban-expiry instant. -/
def inpC9late : JoinInput :=
  ⟨true, "main", "s9", "bob", none, some "c9", "", "", 61000, "12:21", "user-3"⟩

/-- A clientId ban on `"c9"` expiring at 61000 (= 1000 + 60000). -/
def banC9 : BanEntry := ⟨"b1", "clientId", "c9", "", some 61000, 1000⟩

/-- An ip ban on `"9.9.9.9"` expiring at 61000. -/
def banC9ip : BanEntry := ⟨"b2", "ip", "9.9.9.9", "", some 61000, 1000⟩

/-- A join attempt arriving from the banned address `"9.9.9.9"`. -/
def inpC9ip : JoinInput :=
  ⟨true, "main", "s9", "bob", none, some "cX", "", "9.9.9.9", 1000, "12:20", "user-3"⟩

/-! ## Helper lemmas -/

theorem dropWhile_dropWhile {α : Type} (p : α → Bool) (l : List α) :
    (l.dropWhile p).dropWhile p = l.dropWhile p := by
  induction l with
  | nil => rfl
  | cons a as ih =>
    cases h : p a
    · simp [List.dropWhile_cons, h]
    · simp [List.dropWhile_cons, h, ih]

theorem pushTrunc_sublist (l : List LogEntry) : List.Sublist (pushTrunc l) l := by
  unfold pushTrunc
  split
  · exact List.tail_sublist l
  · exact List.Sublist.refl l

theorem mem_pushTrunc_concat (l : List LogEntry) (e : LogEntry) :
    e ∈ pushTrunc (l ++ [e]) := by
  unfold pushTrunc
  split
  case isTrue h =>
    cases l with
    | nil => simp at h
    | cons a as => simp
  case isFalse h => simp

/-- Components of `step` at a `push` event. -/
theorem step_push_parts (t : Trace) (p : Payload) :
    (step t (.push p)).state.chatLog
        = pushTrunc (t.state.chatLog ++ [p.toEntry t.state.nextMessageId]) ∧
    (step t (.push p)).state.nextMessageId = t.state.nextMessageId + 1 ∧
    (step t (.push p)).appended = t.appended ++ [p.toEntry t.state.nextMessageId] := by
  refine ⟨rfl, rfl, rfl⟩

/-- A `poll` event leaves the log, the counter and the append history unchanged. -/
theorem step_poll_parts (t : Trace) (wid s : Nat) :
    (step t (.poll wid s)).state.chatLog = t.state.chatLog ∧
    (step t (.poll wid s)).state.nextMessageId = t.state.nextMessageId ∧
    (step t (.poll wid s)).appended = t.appended := by
  by_cases hn : (newsFor t.state.chatLog s).isEmpty <;>
    simp [step, pollEndpoint, hn]

/-- A `timeout` event leaves the log, the counter and the append history unchanged. -/
theorem step_timeout_parts (t : Trace) (wid : Nat) :
    (step t (.timeout wid)).state.chatLog = t.state.chatLog ∧
    (step t (.timeout wid)).state.nextMessageId = t.state.nextMessageId ∧
    (step t (.timeout wid)).appended = t.appended := by
  by_cases ha : t.state.pollWaiters.any (fun w => w.wid == wid) <;>
    simp [step, timeoutWaiter, ha]

/-- A `close` event leaves the log, the counter and the append history unchanged. -/
theorem step_close_parts (t : Trace) (wid : Nat) :
    (step t (.close wid)).state.chatLog = t.state.chatLog ∧
    (step t (.close wid)).state.nextMessageId = t.state.nextMessageId ∧
    (step t (.close wid)).appended = t.appended := by
  by_cases ha : t.state.pollWaiters.any (fun w => w.wid == wid) <;>
    simp [step, closeWaiter, ha]

/-- Every step preserves the reachability invariant. -/
theorem step_inv (t : Trace) (op : Op) (h : Inv t) : Inv (step t op) := by
  obtain ⟨hls, hlb, has, hab⟩ := h
  cases op with
  | push p =>
    obtain ⟨hc, hn, happ⟩ := step_push_parts t p
    have hsorted1 :
        (t.state.chatLog ++ [p.toEntry t.state.nextMessageId]).Pairwise
          (fun a b => a.id < b.id) := by
      rw [List.pairwise_append]
      refine ⟨hls, List.pairwise_singleton _ _, ?_⟩
      intro a ha b hb
      have hb' : b = p.toEntry t.state.nextMessageId := by simpa using hb
      subst hb'
      exact hlb a ha
    refine ⟨?_, ?_, ?_, ?_⟩
    · rw [hc]
      exact hsorted1.sublist (pushTrunc_sublist _)
    · intro e he
      rw [hc] at he
      rw [hn]
      have he1 : e ∈ t.state.chatLog ++ [p.toEntry t.state.nextMessageId] :=
        (pushTrunc_sublist _).mem he
      rcases List.mem_append.mp he1 with h1 | h1
      · exact Nat.lt_succ_of_lt (hlb e h1)
      · have : e = p.toEntry t.state.nextMessageId := by simpa using h1
        subst this
        exact Nat.lt_succ_self _
    · rw [happ, List.pairwise_append]
      refine ⟨has, List.pairwise_singleton _ _, ?_⟩
      intro a ha b hb
      have hb' : b = p.toEntry t.state.nextMessageId := by simpa using hb
      subst hb'
      exact hab a ha
    · intro e he
      rw [happ] at he
      rw [hn]
      rcases List.mem_append.mp he with h1 | h1
      · exact Nat.lt_succ_of_lt (hab e h1)
      · have : e = p.toEntry t.state.nextMessageId := by simpa using h1
        subst this
        exact Nat.lt_succ_self _
  | poll wid s =>
    obtain ⟨hc, hn, happ⟩ := step_poll_parts t wid s
    exact ⟨hc ▸ hls, fun e he => hn ▸ hlb e (hc ▸ he), happ ▸ has,
      fun e he => hn ▸ hab e (happ ▸ he)⟩
  | timeout wid =>
    obtain ⟨hc, hn, happ⟩ := step_timeout_parts t wid
    exact ⟨hc ▸ hls, fun e he => hn ▸ hlb e (hc ▸ he), happ ▸ has,
      fun e he => hn ▸ hab e (happ ▸ he)⟩
  | close wid =>
    obtain ⟨hc, hn, happ⟩ := step_close_parts t wid
    exact ⟨hc ▸ hls, fun e he => hn ▸ hlb e (hc ▸ he), happ ▸ has,
      fun e he => hn ▸ hab e (happ ▸ he)⟩
  | clear =>
    refine ⟨by simp [step, clearLog], by simp [step, clearLog], has, ?_⟩
    intro e he
    exact hab e he

theorem inv_foldl (ops : List Op) : ∀ t : Trace, Inv t → Inv (ops.foldl step t) := by
  induction ops with
  | nil => intro t h; exact h
  | cons op ops ih =>
    intro t h
    exact ih _ (step_inv t op h)

theorem inv_runOps (ops : List Op) : Inv (runOps ops) := by
  refine inv_foldl ops _ ⟨List.Pairwise.nil, ?_, List.Pairwise.nil, ?_⟩ <;>
    intro e he <;> exact absurd he (List.not_mem_nil e)

theorem step_nextMessageId_le (t : Trace) (op : Op) :
    t.state.nextMessageId ≤ (step t op).state.nextMessageId := by
  cases op with
  | push p => exact (step_push_parts t p).2.1 ▸ Nat.le_succ _
  | poll wid s => exact (step_poll_parts t wid s).2.1 ▸ Nat.le_refl _
  | timeout wid => exact (step_timeout_parts t wid).2.1 ▸ Nat.le_refl _
  | close wid => exact (step_close_parts t wid).2.1 ▸ Nat.le_refl _
  | clear => exact Nat.le_refl _

theorem foldl_nextMessageId_le (ops : List Op) :
    ∀ t : Trace, t.state.nextMessageId ≤ (ops.foldl step t).state.nextMessageId := by
  induction ops with
  | nil => intro t; exact Nat.le_refl _
  | cons op ops ih =>
    intro t
    exact Nat.le_trans (step_nextMessageId_le t op) (ih (step t op))

/-! ## Claims -/

/-- C1: in any reachable execution, the entries appended to a room's log carry
strictly increasing ids (so an earlier append has a smaller id and no id is
ever assigned twice, across window truncation and log clearing alike), and the
next-id counter never decreases as further events run. -/
theorem log_ids_monotone_never_reused (ops : List Op) :
    ((runOps ops).appended.Pairwise (fun a b => a.id < b.id)) ∧
    ∀ more : List Op,
      (runOps ops).state.nextMessageId ≤ (runOps (ops ++ more)).state.nextMessageId := by
  refine ⟨(inv_runOps ops).appSorted, ?_⟩
  intro more
  show (runOps ops).state.nextMessageId
      ≤ ((ops ++ more).foldl step ⟨initRoomState, [], []⟩).state.nextMessageId
  rw [List.foldl_append]
  exact foldl_nextMessageId_le more (runOps ops)

set_option maxRecDepth 4000 in
/-- C2: for every reachable room state and cursor `X`, the poll computation
returns exactly the currently-retained entries with id strictly greater than
`X`, in ascending id order; when such entries exist the endpoint answers
`ok` with precisely that list; a cursor below every retained id (in particular
one older than the oldest retained id) yields all retained entries, never an
error; and a room retaining ids 1..50 polled with `since = 47` receives
exactly the entries with ids 48, 49, 50 in that order. -/
theorem poll_returns_exactly_retained_after_cursor :
    (∀ (ops : List Op) (X : Nat),
        ((newsFor (runOps ops).state.chatLog X).Pairwise (fun a b => a.id < b.id)) ∧
        (∀ e : LogEntry, e ∈ newsFor (runOps ops).state.chatLog X ↔
            e ∈ (runOps ops).state.chatLog ∧ X < e.id)) ∧
    (∀ (ops : List Op) (wid X : Nat),
        newsFor (runOps ops).state.chatLog X ≠ [] →
        pollEndpoint true (runOps ops).state wid X
          = ((runOps ops).state, PollResponse.ok (newsFor (runOps ops).state.chatLog X))) ∧
    (∀ (ops : List Op) (wid X : Nat),
        (runOps ops).state.chatLog ≠ [] →
        (∀ e ∈ (runOps ops).state.chatLog, X < e.id) →
        (pollEndpoint true (runOps ops).state wid X).2
            = PollResponse.ok ((runOps ops).state.chatLog) ∧
        (pollEndpoint true (runOps ops).state wid X).2 ≠ PollResponse.notFound) ∧
    ((pollEndpoint true (runOps ops50).state 0 47).2
        = PollResponse.ok [pChat.toEntry 48, pChat.toEntry 49, pChat.toEntry 50]) := by
  have hmem : ∀ (log : List LogEntry) (X : Nat) (e : LogEntry),
      e ∈ newsFor log X ↔ e ∈ log ∧ X < e.id := by
    intro log X e
    simp [newsFor, List.mem_filter]
  have hok : ∀ (st : RoomState) (wid X : Nat),
      newsFor st.chatLog X ≠ [] →
      pollEndpoint true st wid X = (st, PollResponse.ok (newsFor st.chatLog X)) := by
    intro st wid X hne
    have hemp : (newsFor st.chatLog X).isEmpty = false := by
      cases hx : newsFor st.chatLog X with
      | nil => exact absurd hx hne
      | cons a as => rfl
    simp [pollEndpoint, hemp]
  refine ⟨?_, ?_, ?_, ?_⟩
  · intro ops X
    exact ⟨(inv_runOps ops).logSorted.filter _, hmem _ X⟩
  · intro ops wid X hne
    exact hok _ wid X hne
  · intro ops wid X hne hall
    have hfull : newsFor (runOps ops).state.chatLog X = (runOps ops).state.chatLog := by
      apply List.filter_eq_self.mpr
      intro e he
      exact decide_eq_true (hall e he)
    have h2 := hok _ wid X (by rw [hfull]; exact hne)
    rw [h2, hfull]
    exact ⟨rfl, by simp⟩
  · decide

set_option maxRecDepth 4000 in
/-- C2 witness: the endpoint applied to the concrete 50-entry room. -/
theorem poll_returns_exactly_retained_after_cursor_witness :
    pollEndpoint true (runOps ops50).state 7 47
      = ((runOps ops50).state, PollResponse.ok (newsFor (runOps ops50).state.chatLog 47)) :=
  poll_returns_exactly_retained_after_cursor.2.1 ops50 7 47 (by decide)

/-! ## Waiter bookkeeping lemmas -/

/-- Splitting the satisfied and still-parked waiters of one flush: responses
produced plus waiters kept, both restricted to one handle, account exactly for
the waiters that carried that handle. -/
theorem flush_count_aux (log2 : List LogEntry) (wid : Nat) (W : List Waiter) :
    (((W.filter (fun w => !(newsFor log2 w.sinceId).isEmpty)).map
        (fun w => (w.wid, newsFor log2 w.sinceId))).filter (fun rr => rr.1 == wid)).length
      + ((W.filter (fun w => (newsFor log2 w.sinceId).isEmpty)).filter
          (fun w => w.wid == wid)).length
      = (W.filter (fun w => w.wid == wid)).length := by
  induction W with
  | nil => rfl
  | cons a as ih =>
    cases hq : (newsFor log2 a.sinceId).isEmpty <;> cases hr : (a.wid == wid) <;>
      simp only [List.filter_cons, List.map_cons, hq, hr, Bool.not_true, Bool.not_false,
        if_true, if_false, Bool.false_eq_true, Bool.true_eq_false, ite_true, ite_false,
        List.length_cons] <;> omega

/-- Erasing a waiter that is present removes exactly one occurrence from the
count of its handle. -/
theorem eraseP_count_self (pr : Waiter → Bool) (l : List Waiter)
    (h : l.any pr = true) :
    ((l.eraseP pr).filter pr).length + 1 = (l.filter pr).length := by
  induction l with
  | nil => simp at h
  | cons a as ih =>
    cases ha : pr a
    · have h' : as.any pr = true := by simpa [List.any_cons, ha] using h
      simp [List.eraseP_cons, ha, List.filter_cons, ih h']
    · simp [List.eraseP_cons, ha, List.filter_cons]

/-- One step can only move a waiter of a handle to a response of that handle,
or consume a `poll` event of that handle. -/
theorem step_count_le (t : Trace) (op : Op) (wid : Nat) :
    respCount wid (step t op) + waiterCount wid (step t op)
      ≤ respCount wid t + waiterCount wid t + pollCount wid [op] := by
  cases op with
  | push p =>
    have e1 : (step t (.push p)).responses
        = t.responses
          ++ ((t.state.pollWaiters.filter (fun w =>
                !(newsFor (pushTrunc (t.state.chatLog ++ [p.toEntry t.state.nextMessageId]))
                    w.sinceId).isEmpty)).map
              (fun w => (w.wid,
                newsFor (pushTrunc (t.state.chatLog ++ [p.toEntry t.state.nextMessageId]))
                  w.sinceId))) := rfl
    have e2 : (step t (.push p)).state.pollWaiters
        = t.state.pollWaiters.filter (fun w =>
            (newsFor (pushTrunc (t.state.chatLog ++ [p.toEntry t.state.nextMessageId]))
              w.sinceId).isEmpty) := rfl
    have key := flush_count_aux
      (pushTrunc (t.state.chatLog ++ [p.toEntry t.state.nextMessageId]))
      wid t.state.pollWaiters
    unfold respCount waiterCount pollCount
    rw [e1, e2, List.filter_append, List.length_append]
    omega
  | poll wid' s =>
    by_cases hn : (newsFor t.state.chatLog s).isEmpty
    · have e1 : (step t (.poll wid' s)).responses = t.responses := by
        simp [step, pollEndpoint, hn]
      have e2 : (step t (.poll wid' s)).state.pollWaiters
          = t.state.pollWaiters ++ [⟨wid', s⟩] := by
        simp [step, pollEndpoint, hn]
      unfold respCount waiterCount pollCount
      rw [e1, e2, List.filter_append, List.length_append]
      cases hww : (wid' == wid) <;> simp [List.filter_cons, hww] <;> omega
    · have e1 : (step t (.poll wid' s)).responses
          = t.responses ++ [(wid', newsFor t.state.chatLog s)] := by
        simp [step, pollEndpoint, hn]
      have e2 : (step t (.poll wid' s)).state.pollWaiters = t.state.pollWaiters := by
        simp [step, pollEndpoint, hn]
      unfold respCount waiterCount pollCount
      rw [e1, e2, List.filter_append, List.length_append]
      cases hww : (wid' == wid) <;> simp [List.filter_cons, hww] <;> omega
  | timeout wid' =>
    by_cases ha : t.state.pollWaiters.any (fun w => w.wid == wid')
    · have e1 : (step t (.timeout wid')).responses = t.responses ++ [(wid', [])] := by
        simp [step, timeoutWaiter, ha]
      have e2 : (step t (.timeout wid')).state.pollWaiters
          = t.state.pollWaiters.eraseP (fun w => w.wid == wid') := by
        simp [step, timeoutWaiter, ha]
      unfold respCount waiterCount pollCount
      rw [e1, e2, List.filter_append, List.length_append]
      by_cases hww : wid' = wid
      · subst hww
        have := eraseP_count_self (fun w => w.wid == wid') t.state.pollWaiters ha
        simp [List.filter_cons] at this ⊢
        omega
      · have hsub : List.Sublist
            ((t.state.pollWaiters.eraseP (fun w => w.wid == wid')).filter
              (fun w => w.wid == wid))
            (t.state.pollWaiters.filter (fun w => w.wid == wid)) :=
          (List.eraseP_sublist _).filter _
        have hle := hsub.length_le
        have hww' : (wid' == wid) = false := by
          simpa using hww
        simp [List.filter_cons, hww']
        omega
    · have e1 : (step t (.timeout wid')).responses = t.responses ++ [] := by
        simp [step, timeoutWaiter, ha]
      have e2 : (step t (.timeout wid')).state.pollWaiters = t.state.pollWaiters := by
        simp [step, timeoutWaiter, ha]
      unfold respCount waiterCount pollCount
      rw [e1, e2]
      simp
  | close wid' =>
    by_cases ha : t.state.pollWaiters.any (fun w => w.wid == wid')
    · have e1 : (step t (.close wid')).responses = t.responses := rfl
      have e2 : (step t (.close wid')).state.pollWaiters
          = t.state.pollWaiters.eraseP (fun w => w.wid == wid') := by
        simp [step, closeWaiter, ha]
      unfold respCount waiterCount pollCount
      rw [e1, e2]
      have hsub : List.Sublist
          ((t.state.pollWaiters.eraseP (fun w => w.wid == wid')).filter
            (fun w => w.wid == wid))
          (t.state.pollWaiters.filter (fun w => w.wid == wid)) :=
        (List.eraseP_sublist _).filter _
      have hle := hsub.length_le
      simp
      omega
    · have e1 : (step t (.close wid')).responses = t.responses := rfl
      have e2 : (step t (.close wid')).state.pollWaiters = t.state.pollWaiters := by
        simp [step, closeWaiter, ha]
      unfold respCount waiterCount pollCount
      rw [e1, e2]
      simp
  | clear =>
    unfold respCount waiterCount pollCount
    simp [step, clearLog]

theorem pollCount_cons (wid : Nat) (op : Op) (ops : List Op) :
    pollCount wid (op :: ops) = pollCount wid [op] + pollCount wid ops := by
  cases op with
  | poll w s =>
    cases hww : (w == wid) <;> simp [pollCount, List.filter_cons, hww] <;> omega
  | push p => simp [pollCount, List.filter_cons]
  | timeout w => simp [pollCount, List.filter_cons]
  | close w => simp [pollCount, List.filter_cons]
  | clear => simp [pollCount, List.filter_cons]

theorem foldl_count_le (ops : List Op) :
    ∀ (t : Trace) (wid : Nat),
      respCount wid (ops.foldl step t) + waiterCount wid (ops.foldl step t)
        ≤ respCount wid t + waiterCount wid t + pollCount wid ops := by
  induction ops with
  | nil =>
    intro t wid
    simp [pollCount]
  | cons op ops ih =>
    intro t wid
    have h1 := ih (step t op) wid
    have h2 := step_count_le t op wid
    rw [pollCount_cons]
    calc respCount wid ((op :: ops).foldl step t)
          + waiterCount wid ((op :: ops).foldl step t)
        = respCount wid (ops.foldl step (step t op))
          + waiterCount wid (ops.foldl step (step t op)) := rfl
      _ ≤ respCount wid (step t op) + waiterCount wid (step t op)
          + pollCount wid ops := h1
      _ ≤ respCount wid t + waiterCount wid t + pollCount wid [op]
          + pollCount wid ops := by omega
      _ = respCount wid t + waiterCount wid t
          + (pollCount wid [op] + pollCount wid ops) := by omega

/-- C3: a catch-up poll that finds nothing past its cursor does not error — it
parks a waiter; when an append then assigns a new id, every parked waiter whose
cursor is below that id is removed and immediately receives the news (which
contains the new entry), while waiters at or above it stay parked; a waiter
whose timer fires is removed and receives an `ok` result with an empty message
list; and a handle polled at most once receives at most one response. -/
theorem poll_waiter_lifecycle :
    (∀ (ops : List Op) (wid X : Nat),
        newsFor (runOps ops).state.chatLog X = [] →
        pollEndpoint true (runOps ops).state wid X
          = (⟨(runOps ops).state.users, (runOps ops).state.typingUsers,
              (runOps ops).state.chatLog, (runOps ops).state.nextMessageId,
              (runOps ops).state.pollWaiters ++ [⟨wid, X⟩],
              (runOps ops).state.lastActivityTimes⟩, PollResponse.parked)) ∧
    (∀ (ops : List Op) (p : Payload) (w : Waiter),
        w ∈ (runOps ops).state.pollWaiters →
        (w.sinceId < (runOps ops).state.nextMessageId →
          (w.wid, newsFor (step (runOps ops) (.push p)).state.chatLog w.sinceId)
              ∈ (step (runOps ops) (.push p)).responses ∧
          p.toEntry (runOps ops).state.nextMessageId
              ∈ newsFor (step (runOps ops) (.push p)).state.chatLog w.sinceId ∧
          w ∉ (step (runOps ops) (.push p)).state.pollWaiters) ∧
        ((runOps ops).state.nextMessageId ≤ w.sinceId →
          w ∈ (step (runOps ops) (.push p)).state.pollWaiters)) ∧
    (∀ (ops : List Op) (wid : Nat),
        (runOps ops).state.pollWaiters.any (fun w => w.wid == wid) = true →
        timeoutWaiter (runOps ops).state wid
          = (⟨(runOps ops).state.users, (runOps ops).state.typingUsers,
              (runOps ops).state.chatLog, (runOps ops).state.nextMessageId,
              (runOps ops).state.pollWaiters.eraseP (fun w => w.wid == wid),
              (runOps ops).state.lastActivityTimes⟩, [(wid, [])])) ∧
    (∀ (ops : List Op) (wid : Nat),
        pollCount wid ops ≤ 1 → respCount wid (runOps ops) ≤ 1) := by
  refine ⟨?_, ?_, ?_, ?_⟩
  · intro ops wid X hnil
    have hemp : (newsFor (runOps ops).state.chatLog X).isEmpty = true := by
      rw [hnil]; rfl
    simp [pollEndpoint, hemp]
  · intro ops p w hw
    have inv := inv_runOps ops
    have hids : ∀ e ∈ pushTrunc ((runOps ops).state.chatLog
        ++ [p.toEntry (runOps ops).state.nextMessageId]),
        e.id ≤ (runOps ops).state.nextMessageId := by
      intro e he
      have he1 := (pushTrunc_sublist _).mem he
      rcases List.mem_append.mp he1 with h1 | h1
      · exact Nat.le_of_lt (inv.logBounded e h1)
      · have : e = p.toEntry (runOps ops).state.nextMessageId := by simpa using h1
        subst this
        exact Nat.le_refl _
    have hc : (step (runOps ops) (.push p)).state.chatLog
        = pushTrunc ((runOps ops).state.chatLog
            ++ [p.toEntry (runOps ops).state.nextMessageId]) := rfl
    have e1 : (step (runOps ops) (.push p)).responses
        = (runOps ops).responses
          ++ (((runOps ops).state.pollWaiters.filter (fun w =>
                !(newsFor (pushTrunc ((runOps ops).state.chatLog
                    ++ [p.toEntry (runOps ops).state.nextMessageId]))
                    w.sinceId).isEmpty)).map
              (fun w => (w.wid,
                newsFor (pushTrunc ((runOps ops).state.chatLog
                    ++ [p.toEntry (runOps ops).state.nextMessageId]))
                  w.sinceId))) := rfl
    have e2 : (step (runOps ops) (.push p)).state.pollWaiters
        = (runOps ops).state.pollWaiters.filter (fun w =>
            (newsFor (pushTrunc ((runOps ops).state.chatLog
                ++ [p.toEntry (runOps ops).state.nextMessageId]))
              w.sinceId).isEmpty) := rfl
    constructor
    · intro hlt
      have hpe : p.toEntry (runOps ops).state.nextMessageId
          ∈ newsFor (pushTrunc ((runOps ops).state.chatLog
              ++ [p.toEntry (runOps ops).state.nextMessageId])) w.sinceId := by
        simp only [newsFor, List.mem_filter]
        exact ⟨mem_pushTrunc_concat _ _, decide_eq_true hlt⟩
      have hne : (newsFor (pushTrunc ((runOps ops).state.chatLog
          ++ [p.toEntry (runOps ops).state.nextMessageId])) w.sinceId).isEmpty = false := by
        cases hx : newsFor (pushTrunc ((runOps ops).state.chatLog
            ++ [p.toEntry (runOps ops).state.nextMessageId])) w.sinceId with
        | nil => rw [hx] at hpe; exact absurd hpe (List.not_mem_nil _)
        | cons b bs => rfl
      refine ⟨?_, hc ▸ hpe, ?_⟩
      · rw [e1]
        apply List.mem_append_right
        apply List.mem_map.mpr
        refine ⟨w, List.mem_filter.mpr ⟨hw, ?_⟩, rfl⟩
        rw [hne]; rfl
      · intro hmem
        rw [e2] at hmem
        have := (List.mem_filter.mp hmem).2
        rw [hne] at this
        exact Bool.false_ne_true this
    · intro hge
      have hempty : newsFor (pushTrunc ((runOps ops).state.chatLog
          ++ [p.toEntry (runOps ops).state.nextMessageId])) w.sinceId = [] := by
        apply List.filter_eq_nil.mpr
        intro e he
        have := hids e he
        simp only [decide_eq_true_eq]
        omega
      rw [e2]
      apply List.mem_filter.mpr
      exact ⟨hw, by rw [hempty]; rfl⟩
  · intro ops wid ha
    simp [timeoutWaiter, ha]
  · intro ops wid hpc
    have h := foldl_count_le ops ⟨initRoomState, [], []⟩ wid
    have h0r : respCount wid (⟨initRoomState, [], []⟩ : Trace) = 0 := rfl
    have h0w : waiterCount wid (⟨initRoomState, [], []⟩ : Trace) = 0 := rfl
    have hr : respCount wid (runOps ops) + waiterCount wid (runOps ops)
        ≤ pollCount wid ops := by
      rw [runOps]
      omega
    omega

/-- C3 witness: a poll on the fresh room parks, and a handle polled once then
timed out receives exactly one response. -/
theorem poll_waiter_lifecycle_witness :
    pollEndpoint true (runOps []).state 5 0
        = (⟨(runOps []).state.users, (runOps []).state.typingUsers,
            (runOps []).state.chatLog, (runOps []).state.nextMessageId,
            (runOps []).state.pollWaiters ++ [⟨5, 0⟩],
            (runOps []).state.lastActivityTimes⟩, PollResponse.parked) ∧
    respCount 9 (runOps [Op.poll 9 0, Op.timeout 9]) ≤ 1 :=
  ⟨poll_waiter_lifecycle.1 [] 5 0 (by decide),
   poll_waiter_lifecycle.2.2.2 [Op.poll 9 0, Op.timeout 9] 9 (by decide)⟩

/-- A rejected rate-limit check leaves the clock map untouched. -/
theorem checkRateLimit_pos_map (minI : Int) (rl : List (String × Int))
    (room cid : String) (now : Int)
    (h : 0 < (checkRateLimit minI rl room cid now).1) :
    (checkRateLimit minI rl room cid now).2 = rl := by
  unfold checkRateLimit at h ⊢
  by_cases hc : cid = ""
  · simp [hc] at h
  · by_cases hd : now - ((rl.lookup (keyOf room cid)).getD 0) < minI
    · simp [hc, hd]
    · simp [hc, hd] at h

/-- C4: the rate-limit check rejects an action arriving strictly less than the
minimum interval after the identity's last accepted action, reporting exactly
the remaining wait and leaving the clock unchanged; otherwise it accepts and
resets the clock to `now`.  Concretely (minIntervalMs = 1000): a first send at
5000 is accepted and sets the clock, a second send 400ms later is rejected
with `waitMs = 600` and the clock is untouched, and a second send 1100ms later
is accepted. -/
theorem rate_limit_spec :
    (∀ (minI : Int) (rl : List (String × Int)) (room cid : String) (now : Int),
        cid ≠ "" →
        (now - ((rl.lookup (keyOf room cid)).getD 0) < minI →
          checkRateLimit minI rl room cid now
            = (minI - (now - ((rl.lookup (keyOf room cid)).getD 0)), rl)) ∧
        (minI ≤ now - ((rl.lookup (keyOf room cid)).getD 0) →
          checkRateLimit minI rl room cid now = (0, (keyOf room cid, now) :: rl))) ∧
    ((sendMessage env0 mod1000 true "main" scim1 "s1" "hi" "12:00" 5000 [] stWithAlice).1
        = SendOutcome.accepted ⟨1, "chat", "12:00", some "alice♀", some "hi", none, none⟩ ∧
     (sendMessage env0 mod1000 true "main" scim1 "s1" "hi" "12:00" 5000 [] stWithAlice).2.1
        = rl5000) ∧
    ((sendMessage env0 mod1000 true "main" scim1 "s1" "hi" "12:00" 5400 rl5000 stWithAlice).1
        = SendOutcome.rateLimited 600 ∧
     (sendMessage env0 mod1000 true "main" scim1 "s1" "hi" "12:00" 5400 rl5000 stWithAlice).2.1
        = rl5000) ∧
    ((sendMessage env0 mod1000 true "main" scim1 "s1" "hi" "12:00" 6100 rl5000 stWithAlice).1
        = SendOutcome.accepted ⟨1, "chat", "12:00", some "alice♀", some "hi", none, none⟩) := by
  refine ⟨?_, by decide, by decide, by decide⟩
  intro minI rl room cid now hcid
  constructor
  · intro hlt
    simp [checkRateLimit, hcid, hlt]
  · intro hge
    have hnlt : ¬(now - ((rl.lookup (keyOf room cid)).getD 0) < minI) := not_lt.mpr hge
    simp [checkRateLimit, hcid, hnlt]

/-- C4 witness: the general clause applied at the concrete 400ms-apart call. -/
theorem rate_limit_spec_witness :
    checkRateLimit 1000 rl5000 "main" "c1" 5400
      = (1000 - (5400 - ((rl5000.lookup (keyOf "main" "c1")).getD 0)), rl5000) :=
  (rate_limit_spec.1 1000 rl5000 "main" "c1" 5400 (by decide)).1 (by decide)

/-- C5 counterexample: a sender who is still inside the minimum interval
(`checkRateLimit` would report a 600ms wait) sends an over-length message and
is rejected with the moderation length reason, not the rate-limit reason — the
moderation checks run before the rate-limit check in `send-message`. -/
theorem rate_limited_sender_rejected_with_moderation_reason :
    (checkRateLimit modTiny.minIntervalMs rl5000 "main" "c1" 5400).1 = 600 ∧
    (sendMessage env0 modTiny true "main" scim1 "s1" "ab" "12:00" 5400 rl5000 stWithAlice).1
      = SendOutcome.tooLong ∧
    (sendMessage env0 modTiny true "main" scim1 "s1" "ab" "12:00" 5400 rl5000 stWithAlice).1
      ≠ SendOutcome.rateLimited 600 := by
  refine ⟨by decide, by decide, by decide⟩

/-- C5 (amended): in `send-message` the content-moderation checks (length,
PII, NG word, URL count, blocked domain) run before the rate-limit check:
an outcome of `rateLimited` implies every moderation check passed, and the
rejection touches neither the rate-limit clock map nor the room state.
Capacity and ban checks apply only at join time. -/
theorem send_moderation_precedes_rate_limit :
    ∀ (env : SendEnv) (mod : ModerationPolicy) (room : String)
      (scim : List (String × String)) (sid msg ts : String) (now : Int)
      (rl : List (String × Int)) (st : RoomState) (w : Int),
      (sendMessage env mod true room scim sid msg ts now rl st).1
          = SendOutcome.rateLimited w →
      ¬(0 < mod.maxMsgLen ∧ mod.maxMsgLen < jsLen (jsTrim msg)) ∧
      (mod.blockPII && env.piiCheck (jsTrim msg)) = false ∧
      env.ngCheck (jsTrim msg) = false ∧
      ¬(0 ≤ mod.maxUrlsPerMsg ∧
          mod.maxUrlsPerMsg < ((env.urlsOf (jsTrim msg)).length : Int)) ∧
      ((env.urlsOf (jsTrim msg)).any fun raw => isBlockedHost (env.hostOf raw)) = false ∧
      (sendMessage env mod true room scim sid msg ts now rl st).2.1 = rl ∧
      (sendMessage env mod true room scim sid msg ts now rl st).2.2.1 = st := by
  intro env mod room scim sid msg ts now rl st w h
  cases hu : st.users.lookup sid with
  | none => simp [sendMessage, hu] at h
  | some user =>
    by_cases h0 : jsTrim msg = ""
    · simp [sendMessage, hu, h0] at h
    · by_cases hL : 0 < mod.maxMsgLen ∧ mod.maxMsgLen < jsLen (jsTrim msg)
      · simp [sendMessage, hu, h0, hL] at h
      · have hP : (mod.blockPII && env.piiCheck (jsTrim msg)) = false := by
          by_contra hx
          have hx' : (mod.blockPII && env.piiCheck (jsTrim msg)) = true := by
            revert hx; cases mod.blockPII && env.piiCheck (jsTrim msg) <;> simp
          simp [sendMessage, hu, h0, hL, hx'] at h
        have hN : env.ngCheck (jsTrim msg) = false := by
          by_contra hx
          have hx' : env.ngCheck (jsTrim msg) = true := by
            revert hx; cases env.ngCheck (jsTrim msg) <;> simp
          simp [sendMessage, hu, h0, hL, hP, hx'] at h
        by_cases hU : 0 ≤ mod.maxUrlsPerMsg ∧
            mod.maxUrlsPerMsg < ((env.urlsOf (jsTrim msg)).length : Int)
        · simp [sendMessage, hu, h0, hL, hP, hN, hU] at h
        · have hB : ((env.urlsOf (jsTrim msg)).any
              fun raw => isBlockedHost (env.hostOf raw)) = false := by
            by_contra hx
            have hx' : ((env.urlsOf (jsTrim msg)).any
                fun raw => isBlockedHost (env.hostOf raw)) = true := by
              revert hx
              cases (env.urlsOf (jsTrim msg)).any fun raw => isBlockedHost (env.hostOf raw) <;>
                simp
            simp [sendMessage, hu, h0, hL, hP, hN, hU, hx'] at h
          by_cases hR : 0 <
              (checkRateLimit mod.minIntervalMs rl room
                (jsOrStr (scim.lookup sid) sid) now).1
          · refine ⟨hL, hP, hN, hU, hB, ?_, ?_⟩
            · have hmap := checkRateLimit_pos_map mod.minIntervalMs rl room
                (jsOrStr (scim.lookup sid) sid) now hR
              simp [sendMessage, hu, h0, hL, hP, hN, hU, hB, hR, hmap]
            · simp [sendMessage, hu, h0, hL, hP, hN, hU, hB, hR]
          · simp [sendMessage, hu, h0, hL, hP, hN, hU, hB, hR] at h

/-- C5 witness: the amended claim applied at a concrete rate-limited send. -/
theorem send_moderation_precedes_rate_limit_witness :
    (sendMessage env0 mod1000 true "main" scim1 "s1" "hi" "12:00" 5400 rl5000 stWithAlice).2.1
      = rl5000 :=
  (send_moderation_precedes_rate_limit env0 mod1000 "main" scim1 "s1" "hi" "12:00" 5400
    rl5000 stWithAlice 600 (by decide)).2.2.2.2.2.1

/-- C6 counterexample: a message passing all five moderation checks is still
not appended when the sender is rate-limited — the claim's final clause
("a message that passes all five checks is appended") fails on the code. -/
theorem passes_all_checks_but_not_appended :
    ¬(0 < mod1000.maxMsgLen ∧ mod1000.maxMsgLen < jsLen (jsTrim "hi")) ∧
    (mod1000.blockPII && env0.piiCheck (jsTrim "hi")) = false ∧
    env0.ngCheck (jsTrim "hi") = false ∧
    ¬(0 ≤ mod1000.maxUrlsPerMsg ∧
        mod1000.maxUrlsPerMsg < ((env0.urlsOf (jsTrim "hi")).length : Int)) ∧
    ((env0.urlsOf (jsTrim "hi")).any fun raw => isBlockedHost (env0.hostOf raw)) = false ∧
    (sendMessage env0 mod1000 true "main" scim1 "s1" "hi" "12:00" 5400 rl5000 stWithAlice).1
      = SendOutcome.rateLimited 600 ∧
    (sendMessage env0 mod1000 true "main" scim1 "s1" "hi" "12:00" 5400 rl5000 stWithAlice).2.2.1
      = stWithAlice := by
  refine ⟨by decide, by decide, by decide, by decide, by decide, by decide, by decide⟩

/-- C6 (amended): the moderation checks of `send-message` run in the fixed
order length, PII (only if the policy blocks PII), NG word, URL count, blocked
domain; the reported reason is that of the first failing check (in particular
an over-length message with a banned word reports the length reason); and a
message that passes all five checks and then the rate-limit check is appended
to the room's log. -/
theorem send_moderation_order :
    ∀ (env : SendEnv) (mod : ModerationPolicy) (room : String)
      (scim : List (String × String)) (sid msg ts : String) (now : Int)
      (rl : List (String × Int)) (st : RoomState) (user : User),
      st.users.lookup sid = some user →
      jsTrim msg ≠ "" →
      ((0 < mod.maxMsgLen ∧ mod.maxMsgLen < jsLen (jsTrim msg)) →
        (sendMessage env mod true room scim sid msg ts now rl st).1
          = SendOutcome.tooLong) ∧
      (¬(0 < mod.maxMsgLen ∧ mod.maxMsgLen < jsLen (jsTrim msg)) →
        (mod.blockPII && env.piiCheck (jsTrim msg)) = true →
        (sendMessage env mod true room scim sid msg ts now rl st).1
          = SendOutcome.pii) ∧
      (¬(0 < mod.maxMsgLen ∧ mod.maxMsgLen < jsLen (jsTrim msg)) →
        (mod.blockPII && env.piiCheck (jsTrim msg)) = false →
        env.ngCheck (jsTrim msg) = true →
        (sendMessage env mod true room scim sid msg ts now rl st).1
          = SendOutcome.ngWord) ∧
      (¬(0 < mod.maxMsgLen ∧ mod.maxMsgLen < jsLen (jsTrim msg)) →
        (mod.blockPII && env.piiCheck (jsTrim msg)) = false →
        env.ngCheck (jsTrim msg) = false →
        (0 ≤ mod.maxUrlsPerMsg ∧
          mod.maxUrlsPerMsg < ((env.urlsOf (jsTrim msg)).length : Int)) →
        (sendMessage env mod true room scim sid msg ts now rl st).1
          = SendOutcome.tooManyUrls) ∧
      (¬(0 < mod.maxMsgLen ∧ mod.maxMsgLen < jsLen (jsTrim msg)) →
        (mod.blockPII && env.piiCheck (jsTrim msg)) = false →
        env.ngCheck (jsTrim msg) = false →
        ¬(0 ≤ mod.maxUrlsPerMsg ∧
          mod.maxUrlsPerMsg < ((env.urlsOf (jsTrim msg)).length : Int)) →
        ((env.urlsOf (jsTrim msg)).any fun raw => isBlockedHost (env.hostOf raw)) = true →
        (sendMessage env mod true room scim sid msg ts now rl st).1
          = SendOutcome.blockedDomain) ∧
      (¬(0 < mod.maxMsgLen ∧ mod.maxMsgLen < jsLen (jsTrim msg)) →
        (mod.blockPII && env.piiCheck (jsTrim msg)) = false →
        env.ngCheck (jsTrim msg) = false →
        ¬(0 ≤ mod.maxUrlsPerMsg ∧
          mod.maxUrlsPerMsg < ((env.urlsOf (jsTrim msg)).length : Int)) →
        ((env.urlsOf (jsTrim msg)).any fun raw => isBlockedHost (env.hostOf raw)) = false →
        (checkRateLimit mod.minIntervalMs rl room (jsOrStr (scim.lookup sid) sid) now).1
          = 0 →
        (sendMessage env mod true room scim sid msg ts now rl st).1
          = SendOutcome.accepted
              (Payload.toEntry
                ⟨"chat", ts, some user.name, some (jsTrim msg), jsOrNone user.color, none⟩
                st.nextMessageId) ∧
        Payload.toEntry
            ⟨"chat", ts, some user.name, some (jsTrim msg), jsOrNone user.color, none⟩
            st.nextMessageId
          ∈ (sendMessage env mod true room scim sid msg ts now rl st).2.2.1.chatLog) := by
  intro env mod room scim sid msg ts now rl st user hu h0
  refine ⟨?_, ?_, ?_, ?_, ?_, ?_⟩
  · intro hL
    simp [sendMessage, hu, h0, hL]
  · intro hL hP
    simp [sendMessage, hu, h0, hL, hP]
  · intro hL hP hN
    simp [sendMessage, hu, h0, hL, hP, hN]
  · intro hL hP hN hU
    simp [sendMessage, hu, h0, hL, hP, hN, hU]
  · intro hL hP hN hU hB
    simp [sendMessage, hu, h0, hL, hP, hN, hU, hB]
  · intro hL hP hN hU hB hR
    have hnR : ¬(0 <
        (checkRateLimit mod.minIntervalMs rl room (jsOrStr (scim.lookup sid) sid) now).1) := by
      rw [hR]
      exact lt_irrefl 0
    constructor
    · simp [sendMessage, hu, h0, hL, hP, hN, hU, hB, hnR]
      rfl
    · simp only [sendMessage, hu, h0, hL, hP, hN, hU, hB, hnR]
      simp [pushLog, touchActivity]
      exact mem_pushTrunc_concat _ _

/-- C6 witness: all five checks and the rate limit pass concretely, and the
message is appended with the next id. -/
theorem send_moderation_order_witness :
    (sendMessage env0 mod1000 true "main" scim1 "s1" "hi" "12:00" 6100 rl5000 stWithAlice).1
        = SendOutcome.accepted
            (Payload.toEntry
              ⟨"chat", "12:00", some (User.mk "alice♀" none "female").name,
               some (jsTrim "hi"), jsOrNone (User.mk "alice♀" none "female").color, none⟩
              stWithAlice.nextMessageId) ∧
    Payload.toEntry
        ⟨"chat", "12:00", some (User.mk "alice♀" none "female").name,
         some (jsTrim "hi"), jsOrNone (User.mk "alice♀" none "female").color, none⟩
        stWithAlice.nextMessageId
      ∈ (sendMessage env0 mod1000 true "main" scim1 "s1" "hi" "12:00" 6100 rl5000
          stWithAlice).2.2.1.chatLog :=
  (send_moderation_order env0 mod1000 "main" scim1 "s1" "hi" "12:00" 6100 rl5000
      stWithAlice (User.mk "alice♀" none "female") (by decide) (by decide)).2.2.2.2.2
    (by decide) (by decide) (by decide) (by decide) (by decide) (by decide)

/-- C7 counterexample: an explicit leave of device `"c1"` at 5000 records the
leave instant in the grace map, and a rejoin of the same device five seconds
later is admitted with `announced = false` — no "has joined" system message is
appended — refuting "a rejoin after an explicit leave always announces". -/
theorem explicit_leave_suppresses_rejoin_announcement :
    (leaveRoom true "main" "s1" "12:00" 5000 scim1 [] stWithAlice).2.2.1.lookup ("c1", "main")
        = some 5000 ∧
    (joinRoom inpRejoin []
        (leaveRoom true "main" "s1" "12:00" 5000 scim1 [] stWithAlice).2.1
        (leaveRoom true "main" "s1" "12:00" 5000 scim1 [] stWithAlice).2.2.1
        (leaveRoom true "main" "s1" "12:00" 5000 scim1 [] stWithAlice).1).1
        = JoinOutcome.joined false "alice" ∧
    (joinRoom inpRejoin []
        (leaveRoom true "main" "s1" "12:00" 5000 scim1 [] stWithAlice).2.1
        (leaveRoom true "main" "s1" "12:00" 5000 scim1 [] stWithAlice).2.2.1
        (leaveRoom true "main" "s1" "12:00" 5000 scim1 [] stWithAlice).1).2.2.2.2
        = [] := by
  refine ⟨by decide, by decide, by decide⟩

/-- C7 (amended): the explicit leave handler does set the reconnection-grace
marker `lastLeaveByClientIdRoom[clientId][room] = now` (just as disconnect and
eviction do); a rejoin of the same ClientIdentity and room strictly inside the
grace window (`INACTIVITY_LIMIT_MS`) is admitted without the "has joined"
announcement, while a rejoin at or beyond the window, or with no recorded
leave, announces normally. -/
theorem leave_marker_and_rejoin_grace :
    (∀ (room sid ts : String) (now : Int) (scim : List (String × String))
        (ll : List ((String × String) × Int)) (st : RoomState) (user : User) (cid : String),
        st.users.lookup sid = some user →
        scim.lookup sid = some cid →
        cid ≠ "" →
        (leaveRoom true room sid ts now scim ll st).2.2.1.lookup (cid, room) = some now) ∧
    (∀ (inp : JoinInput) (banItems : List BanEntry) (scim : List (String × String))
        (ll : List ((String × String) × Int)) (st : RoomState) (t : Int),
        inp.roomAllowed = true →
        st.users.lookup inp.socketId = none →
        st.users.length < MAX_USERS →
        (isBanned banItems (jsOrStr inp.clientIdOpt inp.socketId) inp.ip inp.now).1 = false →
        ll.lookup (jsOrStr inp.clientIdOpt inp.socketId, inp.room) = some t →
        t ≠ 0 →
        inp.now - t < INACTIVITY_LIMIT_MS →
        (joinRoom inp banItems scim ll st).1
            = JoinOutcome.joined false
                (applyGenderMark
                  (if jsTrim inp.rawName ≠ "" then jsTrim inp.rawName else inp.randName)
                  inp.gender) ∧
        (joinRoom inp banItems scim ll st).2.1.chatLog = st.chatLog) ∧
    (∀ (inp : JoinInput) (banItems : List BanEntry) (scim : List (String × String))
        (ll : List ((String × String) × Int)) (st : RoomState) (t : Int),
        inp.roomAllowed = true →
        st.users.lookup inp.socketId = none →
        st.users.length < MAX_USERS →
        (isBanned banItems (jsOrStr inp.clientIdOpt inp.socketId) inp.ip inp.now).1 = false →
        ll.lookup (jsOrStr inp.clientIdOpt inp.socketId, inp.room) = some t →
        INACTIVITY_LIMIT_MS ≤ inp.now - t →
        (joinRoom inp banItems scim ll st).1
            = JoinOutcome.joined true
                (applyGenderMark
                  (if jsTrim inp.rawName ≠ "" then jsTrim inp.rawName else inp.randName)
                  inp.gender)) ∧
    (∀ (inp : JoinInput) (banItems : List BanEntry) (scim : List (String × String))
        (ll : List ((String × String) × Int)) (st : RoomState),
        inp.roomAllowed = true →
        st.users.lookup inp.socketId = none →
        st.users.length < MAX_USERS →
        (isBanned banItems (jsOrStr inp.clientIdOpt inp.socketId) inp.ip inp.now).1 = false →
        ll.lookup (jsOrStr inp.clientIdOpt inp.socketId, inp.room) = none →
        (joinRoom inp banItems scim ll st).1
            = JoinOutcome.joined true
                (applyGenderMark
                  (if jsTrim inp.rawName ≠ "" then jsTrim inp.rawName else inp.randName)
                  inp.gender)) := by
  refine ⟨?_, ?_, ?_, ?_⟩
  · intro room sid ts now scim ll st user cid hu hs hc
    simp [leaveRoom, hu, hs, hc]
  · intro inp banItems scim ll st t h1 h2 h3 h4 h5 h6 h7
    have h3' : ¬(MAX_USERS ≤ st.users.length) := not_le.mpr h3
    have hsup : (t != 0 && decide (inp.now - t < INACTIVITY_LIMIT_MS)) = true := by
      simp [h6, h7]
    constructor
    · simp [joinRoom, h1, h2, h3', h4, h5, hsup]
    · simp [joinRoom, h1, h2, h3', h4, h5, hsup, touchActivity]
  · intro inp banItems scim ll st t h1 h2 h3 h4 h5 h6
    have h3' : ¬(MAX_USERS ≤ st.users.length) := not_le.mpr h3
    have hsup : (t != 0 && decide (inp.now - t < INACTIVITY_LIMIT_MS)) = false := by
      have : ¬(inp.now - t < INACTIVITY_LIMIT_MS) := not_lt.mpr h6
      simp [this]
    simp [joinRoom, h1, h2, h3', h4, h5, hsup]
  · intro inp banItems scim ll st h1 h2 h3 h4 h5
    have h3' : ¬(MAX_USERS ≤ st.users.length) := not_le.mpr h3
    simp [joinRoom, h1, h2, h3', h4, h5]

/-- C7 witness: the leave-marker clause applied at a concrete leave. -/
theorem leave_marker_and_rejoin_grace_witness :
    (leaveRoom true "main" "s1" "12:00" 5000 scim1 [] stWithAlice).2.2.1.lookup ("c1", "main")
      = some 5000 :=
  leave_marker_and_rejoin_grace.1 "main" "s1" "12:00" 5000 scim1 [] stWithAlice
    ⟨"alice♀", none, "female"⟩ "c1" (by decide) (by decide) (by decide)

/-- C8: a join arriving when the room already holds `MAX_USERS = 10` members
is answered with the room-full signal and changes nothing: the room state, the
socket-to-client map and the ban list are returned untouched and no log entry
or waiter response is produced. -/
theorem join_full_room_rejected_no_change :
    ∀ (inp : JoinInput) (banItems : List BanEntry) (scim : List (String × String))
      (ll : List ((String × String) × Int)) (st : RoomState),
      inp.roomAllowed = true →
      st.users.lookup inp.socketId = none →
      MAX_USERS ≤ st.users.length →
      joinRoom inp banItems scim ll st
        = (JoinOutcome.roomFull, st, scim, banItems, []) := by
  intro inp banItems scim ll st h1 h2 h3
  simp [joinRoom, h1, h2, h3]

/-- C8 witness: the eleventh join against a ten-member room. -/
theorem join_full_room_rejected_no_change_witness :
    joinRoom inpEleventh [] [] [] stFull = (JoinOutcome.roomFull, stFull, [], [], []) :=
  join_full_room_rejected_no_change inpEleventh [] [] [] stFull (by decide) (by decide)
    (by decide)

/-- C9: a ban entry matching the caller's clientId or IP, with no expiry or an
expiry in the future, makes `isBanned` true and the join is rejected; an entry
whose expiry has passed is removed by the cleanup that runs before every ban
check, so once every entry matching the identity is expired the check is false
and an identical join attempt is admitted. -/
theorem ban_blocks_exactly_while_unexpired :
    (∀ (items : List BanEntry) (cid ip : String) (now : Int) (it : BanEntry),
        it ∈ items →
        ((it.type = "clientId" ∧ it.value = cid ∧ cid ≠ "") ∨
         (it.type = "ip" ∧ it.value = ip ∧ ip ≠ "")) →
        (it.expiresAt = none ∨ ∃ e : Int, it.expiresAt = some e ∧ now < e) →
        (isBanned items cid ip now).1 = true) ∧
    (∀ (items : List BanEntry) (cid ip : String) (now : Int) (it : BanEntry),
        (∃ e : Int, it.expiresAt = some e ∧ e ≠ 0 ∧ e ≤ now) →
        it ∉ (isBanned items cid ip now).2) ∧
    (∀ (items : List BanEntry) (cid ip : String) (now : Int),
        (∀ it ∈ items, matchesIdentity it cid ip = true →
          ∃ e : Int, it.expiresAt = some e ∧ e ≠ 0 ∧ e ≤ now) →
        (isBanned items cid ip now).1 = false) ∧
    (∀ (inp : JoinInput) (items : List BanEntry) (scim : List (String × String))
        (ll : List ((String × String) × Int)) (st : RoomState),
        inp.roomAllowed = true →
        st.users.lookup inp.socketId = none →
        st.users.length < MAX_USERS →
        ((isBanned items (jsOrStr inp.clientIdOpt inp.socketId) inp.ip inp.now).1 = true →
          (joinRoom inp items scim ll st).1 = JoinOutcome.banned) ∧
        ((isBanned items (jsOrStr inp.clientIdOpt inp.socketId) inp.ip inp.now).1 = false →
          ∃ (b : Bool) (d : String),
            (joinRoom inp items scim ll st).1 = JoinOutcome.joined b d)) := by
  refine ⟨?_, ?_, ?_, ?_⟩
  · intro items cid ip now it hit hid hexp
    have hkeep : banKeep now it = true := by
      rcases hexp with hnone | ⟨e, he, hlt⟩
      · simp [banKeep, hnone]
      · simp [banKeep, he]
        omega
    have hmatch : matchesIdentity it cid ip = true := by
      rcases hid with ⟨htype, hval, hcid⟩ | ⟨htype, hval, hip⟩
      · simp [matchesIdentity, htype, hval, hcid]
      · simp [matchesIdentity, htype, hval, hip]
    apply List.any_eq_true.mpr
    exact ⟨it, List.mem_filter.mpr ⟨hit, hkeep⟩, hmatch⟩
  · intro items cid ip now it hexp hmem
    obtain ⟨e, he, hne, hle⟩ := hexp
    have hkeep := (List.mem_filter.mp hmem).2
    have : banKeep now it = false := by
      simp [banKeep, he]
      constructor
      · exact hne
      · omega
    rw [this] at hkeep
    exact Bool.false_ne_true hkeep
  · intro items cid ip now hall
    apply List.any_eq_false.mpr
    intro it hmem
    have hit := List.mem_filter.mp hmem
    by_contra hx
    have hx' : matchesIdentity it cid ip = true := by
      revert hx; cases matchesIdentity it cid ip <;> simp
    obtain ⟨e, he, hne, hle⟩ := hall it hit.1 hx'
    have : banKeep now it = false := by
      simp [banKeep, he]
      constructor
      · exact hne
      · omega
    rw [this] at hit
    exact Bool.false_ne_true hit.2
  · intro inp items scim ll st h1 h2 h3
    have h3' : ¬(MAX_USERS ≤ st.users.length) := not_le.mpr h3
    constructor
    · intro hban
      simp [joinRoom, h1, h2, h3', hban]
    · intro hban
      simp only [joinRoom, h1, h2, h3', hban]
      simp
      split
      · exact Or.inl ⟨_, rfl⟩
      · exact Or.inr ⟨_, rfl⟩

/-- C9 witness: the clientId `"c9"` banned until 61000 cannot join at 1000 and
joins at 61000, the expiry instant; an unexpired ip ban likewise makes
`isBanned` true and rejects the join arriving from that address. -/
theorem ban_blocks_exactly_while_unexpired_witness :
    (isBanned [banC9] "c9" "" 1000).1 = true ∧
    (joinRoom inpC9 [banC9] [] [] initRoomState).1 = JoinOutcome.banned ∧
    (isBanned [banC9ip] "" "9.9.9.9" 1000).1 = true ∧
    (joinRoom inpC9ip [banC9ip] [] [] initRoomState).1 = JoinOutcome.banned ∧
    (isBanned [banC9] "c9" "" 61000).1 = false ∧
    (∃ (b : Bool) (d : String),
      (joinRoom inpC9late [banC9] [] [] initRoomState).1 = JoinOutcome.joined b d) :=
  ⟨ban_blocks_exactly_while_unexpired.1 [banC9] "c9" "" 1000 banC9 (by decide)
      (Or.inl ⟨rfl, rfl, by decide⟩) (Or.inr ⟨61000, rfl, by decide⟩),
   (ban_blocks_exactly_while_unexpired.2.2.2 inpC9 [banC9] [] [] initRoomState (by decide)
      (by decide) (by decide)).1 (by decide),
   ban_blocks_exactly_while_unexpired.1 [banC9ip] "" "9.9.9.9" 1000 banC9ip (by decide)
      (Or.inr ⟨rfl, rfl, by decide⟩) (Or.inr ⟨61000, rfl, by decide⟩),
   (ban_blocks_exactly_while_unexpired.2.2.2 inpC9ip [banC9ip] [] [] initRoomState (by decide)
      (by decide) (by decide)).1 (by decide),
   ban_blocks_exactly_while_unexpired.2.2.1 [banC9] "c9" "" 61000
      (by decide),
   (ban_blocks_exactly_while_unexpired.2.2.2 inpC9late [banC9] [] [] initRoomState (by decide)
      (by decide) (by decide)).2 (by decide)⟩

/-! ## Trim lemmas for the gender mark -/

theorem trimLeft_trimLeft (l : List Char) : trimLeft (trimLeft l) = trimLeft l :=
  dropWhile_dropWhile jsWhitespace l

theorem trimRight_trimRight (l : List Char) : trimRight (trimRight l) = trimRight l := by
  unfold trimRight
  rw [List.reverse_reverse, dropWhile_dropWhile]

/-- `trimRight` keeps a prefix of its argument. -/
theorem trimRight_append (l : List Char) : ∃ t, trimRight l ++ t = l := by
  obtain ⟨s, hs⟩ := List.dropWhile_suffix (l := l.reverse) (p := jsWhitespace)
  refine ⟨s.reverse, ?_⟩
  unfold trimRight
  rw [← List.reverse_append, hs, List.reverse_reverse]

/-- A list fixed by `trimLeft` is empty or starts with a non-whitespace
character. -/
theorem trimLeft_fix_shape (l : List Char) (h : trimLeft l = l) :
    l = [] ∨ ∃ a as, l = a :: as ∧ jsWhitespace a = false := by
  cases l with
  | nil => exact Or.inl rfl
  | cons a as =>
    right
    refine ⟨a, as, rfl, ?_⟩
    by_contra hws
    have hws' : jsWhitespace a = true := by
      revert hws; cases jsWhitespace a <;> simp
    have h1 : trimLeft (a :: as) = trimLeft as := by
      simp [trimLeft, List.dropWhile_cons, hws']
    have h2 : (trimLeft as).length ≤ as.length :=
      (List.dropWhile_sublist _).length_le
    rw [h1] at h
    rw [h] at h2
    simp at h2

/-- A prefix of a list fixed by `trimLeft` is itself fixed by `trimLeft`. -/
theorem trimLeft_prefix_fix (u v : List Char) (h : trimLeft (u ++ v) = u ++ v) :
    trimLeft u = u := by
  cases u with
  | nil => rfl
  | cons a as =>
    rcases trimLeft_fix_shape (a :: as ++ v) (by simpa using h) with h0 | ⟨b, bs, hb, hws⟩
    · simp at h0
    · have hba : a = b := by
        have : a :: (as ++ v) = b :: bs := by simpa using hb
        exact (List.cons.injEq _ _ _ _ ▸ this).1
      subst hba
      simp [trimLeft, List.dropWhile_cons, hws]

theorem jsTrimList_trimLeft_fix (l : List Char) :
    trimLeft (jsTrimList l) = jsTrimList l := by
  obtain ⟨t, ht⟩ := trimRight_append (trimLeft l)
  exact trimLeft_prefix_fix (trimRight (trimLeft l)) t (by rw [ht]; exact trimLeft_trimLeft l)

theorem jsTrimList_idem (l : List Char) : jsTrimList (jsTrimList l) = jsTrimList l := by
  show trimRight (trimLeft (jsTrimList l)) = jsTrimList l
  rw [jsTrimList_trimLeft_fix]
  show trimRight (trimRight (trimLeft l)) = jsTrimList l
  rw [trimRight_trimRight]
  rfl

/-- Appending a non-whitespace character to a trimmed list keeps it trimmed. -/
theorem jsTrimList_append_nonws (l : List Char) (c : Char) (hc : jsWhitespace c = false) :
    jsTrimList (jsTrimList l ++ [c]) = jsTrimList l ++ [c] := by
  have h2 : trimLeft (jsTrimList l ++ [c]) = jsTrimList l ++ [c] := by
    rcases trimLeft_fix_shape (jsTrimList l) (jsTrimList_trimLeft_fix l) with h0 | ⟨a, as, hcons, hws⟩
    · rw [h0]
      simp [trimLeft, List.dropWhile_cons, hc]
    · rw [hcons]
      simp [trimLeft, List.dropWhile_cons, hws]
  show trimRight (trimLeft (jsTrimList l ++ [c])) = jsTrimList l ++ [c]
  rw [h2]
  unfold trimRight
  rw [List.reverse_append]
  simp [List.dropWhile_cons, hc]

/-- C10: applying the gender mark is idempotent — the marked name trims to
itself and already ends in a mark, so a second application (for instance on a
resubmitted name) returns it unchanged; moreover a trimmed name that already
ends in `♂` or `♀` is returned as is, so a display name never accumulates a
second mark. -/
theorem applyGenderMark_idempotent :
    ∀ (n g : String),
      applyGenderMark (applyGenderMark n g) g = applyGenderMark n g ∧
      ((endsWithChar (jsTrimList n.data) (Char.ofNat 9794)
          || endsWithChar (jsTrimList n.data) (Char.ofNat 9792)) = true →
        applyGenderMark n g = ⟨jsTrimList n.data⟩) := by
  intro n g
  have hmale : jsWhitespace (Char.ofNat 9794) = false := by decide
  have hfemale : jsWhitespace (Char.ofNat 9792) = false := by decide
  constructor
  · by_cases h1 : (endsWithChar (jsTrimList n.data) (Char.ofNat 9794)
        || endsWithChar (jsTrimList n.data) (Char.ofNat 9792)) = true
    · have hinner : applyGenderMark n g = ⟨jsTrimList n.data⟩ := by
        simp only [applyGenderMark]
        rw [if_pos h1]
      rw [hinner]
      simp only [applyGenderMark]
      show (if (endsWithChar (jsTrimList (jsTrimList n.data)) (Char.ofNat 9794)
          || endsWithChar (jsTrimList (jsTrimList n.data)) (Char.ofNat 9792)) = true
        then _ else _) = _
      rw [jsTrimList_idem, if_pos h1]
    · have h1' : (endsWithChar (jsTrimList n.data) (Char.ofNat 9794)
          || endsWithChar (jsTrimList n.data) (Char.ofNat 9792)) = false := by
        revert h1
        cases endsWithChar (jsTrimList n.data) (Char.ofNat 9794)
            || endsWithChar (jsTrimList n.data) (Char.ofNat 9792) <;> simp
      by_cases hg1 : (g == "male") = true
      · have hinner : applyGenderMark n g = ⟨jsTrimList n.data ++ [Char.ofNat 9794]⟩ := by
          simp only [applyGenderMark]
          rw [if_neg (by simp [h1']), if_pos hg1]
        rw [hinner]
        have hmark : (endsWithChar (jsTrimList (jsTrimList n.data ++ [Char.ofNat 9794]))
            (Char.ofNat 9794)
            || endsWithChar (jsTrimList (jsTrimList n.data ++ [Char.ofNat 9794]))
              (Char.ofNat 9792)) = true := by
          rw [jsTrimList_append_nonws n.data (Char.ofNat 9794) hmale]
          simp [endsWithChar, List.getLast?_concat]
        simp only [applyGenderMark]
        rw [if_pos hmark, jsTrimList_append_nonws n.data (Char.ofNat 9794) hmale]
      · by_cases hg2 : (g == "female") = true
        · have hinner : applyGenderMark n g = ⟨jsTrimList n.data ++ [Char.ofNat 9792]⟩ := by
            simp only [applyGenderMark]
            rw [if_neg (by simp [h1']), if_neg (by simp [hg1]), if_pos hg2]
          rw [hinner]
          have hmark : (endsWithChar (jsTrimList (jsTrimList n.data ++ [Char.ofNat 9792]))
              (Char.ofNat 9794)
              || endsWithChar (jsTrimList (jsTrimList n.data ++ [Char.ofNat 9792]))
                (Char.ofNat 9792)) = true := by
            rw [jsTrimList_append_nonws n.data (Char.ofNat 9792) hfemale]
            simp [endsWithChar, List.getLast?_concat]
          simp only [applyGenderMark]
          rw [if_pos hmark, jsTrimList_append_nonws n.data (Char.ofNat 9792) hfemale]
        · have hinner : applyGenderMark n g = ⟨jsTrimList n.data⟩ := by
            simp only [applyGenderMark]
            rw [if_neg (by simp [h1']), if_neg (by simp [hg1]), if_neg (by simp [hg2])]
          rw [hinner]
          simp only [applyGenderMark]
          show (if (endsWithChar (jsTrimList (jsTrimList n.data)) (Char.ofNat 9794)
              || endsWithChar (jsTrimList (jsTrimList n.data)) (Char.ofNat 9792)) = true
            then _ else _) = _
          rw [jsTrimList_idem, if_neg (by simp [h1']), if_neg (by simp [hg1]),
            if_neg (by simp [hg2])]
  · intro h1
    simp only [applyGenderMark]
    rw [if_pos h1]

/-- C10 witness: a name already carrying the male mark is returned trimmed and
unchanged. -/
theorem applyGenderMark_idempotent_witness :
    applyGenderMark "ana♂" "female" = ⟨jsTrimList "ana♂".data⟩ :=
  (applyGenderMark_idempotent "ana♂" "female").2 (by decide)

end SingleRoomChat
